import Mathlib

/-!
Verification development for the babel_player lyrics core: the data model
(`src/lyrics.rs`), the structural-edit operations and loaders
(`src/lyrics_editor.rs`), and the active-window resolver (`src/app.rs`).

Machine integers of the source are modelled as follows: `chrono::Duration`
values (always constructed and read through whole milliseconds in this code
base) become `Int` millisecond counts, `usize` word indices become `Nat`,
and `uuid::Uuid` identifiers become opaque `Nat` tags.
-/

set_option autoImplicit false

namespace BabelPlayer

/-- Mirrors `TranslationEntry` in src/lyrics.rs: a registered translation
language with display name and stable id. -/
structure TranslationEntry where
  language : String
  id : Nat
deriving DecidableEq

/-- Mirrors `Agent` in src/lyrics.rs. -/
structure Agent where
  id : String
deriving DecidableEq

/-- Mirrors `LyricsMetadata` in src/lyrics.rs. -/
structure LyricsMetadata where
  agents : List Agent
  translations : List TranslationEntry
deriving DecidableEq

/-- Mirrors `LyricsSegment` in src/lyrics.rs: a word-level timed unit.
`begin`/`end` are millisecond timestamps; `translations` associates each
language id with the list of translated-word indices belonging to this
segment. The Rust field `end` is spelled `end_` because `end` is reserved. -/
structure LyricsSegment where
  begin : Int
  end_ : Int
  text : String
  translations : List (Nat × List Nat)
deriving DecidableEq

/-- Mirrors `LyricsLine` in src/lyrics.rs. -/
structure LyricsLine where
  begin : Int
  end_ : Int
  agent_id : String
  original : List LyricsSegment
  uuid : Nat
  translations : List (Nat × List String)
deriving DecidableEq

/-- Mirrors `Lyrics` in src/lyrics.rs. -/
structure Lyrics where
  lines : List LyricsLine
deriving DecidableEq

/-- Mirrors `BabelLyrics` in src/lyrics.rs: the top-level document. -/
structure BabelLyrics where
  metadata : LyricsMetadata
  lyrics : Lyrics
deriving DecidableEq

/-! ## Active-window resolver (src/app.rs, `show_lyrics_window` and the
captions window in `update`) -/

/-- The line-activity test of src/app.rs lines 477 and 364:
`current_time > line.begin && current_time < line.end`. -/
def lineActive (t : Int) (l : LyricsLine) : Bool :=
  decide (l.begin < t) && decide (t < l.end_)

/-- The segment-activity test of src/app.rs lines 481 and 368:
`current_time > segment.begin && current_time < segment.end`. -/
def segmentActive (t : Int) (s : LyricsSegment) : Bool :=
  decide (s.begin < t) && decide (t < s.end_)

/-- src/app.rs lines 478-502: `current_translations_index_vec` collects the
translation pairs of every active segment of the line, in order, and for a
given language id the pairs with that id are flattened into the list of
highlighted word indices. -/
def highlightedTranslationIndices (line : LyricsLine) (t : Int) (langId : Nat) : List Nat :=
  ((line.original.filter (fun s => segmentActive t s)).flatMap (fun s => s.translations)).flatMap
    (fun p => if p.1 = langId then p.2 else [])

/-- src/app.rs line 506: a translated word at position `k` is painted in the
highlight color iff `language_translations_index_vec.contains(&index)`. -/
def wordHighlighted (line : LyricsLine) (t : Int) (langId : Nat) (k : Nat) : Bool :=
  (highlightedTranslationIndices line t langId).contains k

/-- C2: the resolver reports a line, and a segment within a line, as active
iff the timestamp lies strictly between its begin and end; at a timestamp
exactly equal to either bound the element is not active. -/
theorem resolver_strict_open_interval (t : Int) (l : LyricsLine) (s : LyricsSegment) :
    (lineActive t l = true ↔ (l.begin < t ∧ t < l.end_)) ∧
    (segmentActive t s = true ↔ (s.begin < t ∧ t < s.end_)) ∧
    lineActive l.begin l = false ∧ lineActive l.end_ l = false ∧
    segmentActive s.begin s = false ∧ segmentActive s.end_ s = false := by
  refine ⟨?_, ?_, ?_, ?_, ?_, ?_⟩ <;> simp [lineActive, segmentActive]

/-- C3: a translated word at index `k` is rendered highlighted iff `k` occurs
in the association list for that language of some segment of the line that is
active at the timestamp, i.e. the highlighted set is the union of the per-language
association lists of exactly the active segments. -/
theorem highlighted_iff_active_segment_association
    (line : LyricsLine) (t : Int) (langId : Nat) (k : Nat) :
    wordHighlighted line t langId k = true ↔
      ∃ s ∈ line.original, segmentActive t s = true ∧
        ∃ p ∈ s.translations, p.1 = langId ∧ k ∈ p.2 := by
  simp only [wordHighlighted, highlightedTranslationIndices, List.elem_iff,
    decide_eq_true_eq, List.mem_flatMap, List.mem_filter]
  constructor
  · rintro ⟨p, ⟨s, ⟨hs, hact⟩, hps⟩, hk⟩
    by_cases h : p.1 = langId
    · exact ⟨s, hs, hact, p, hps, h, by simpa [h] using hk⟩
    · simp [h] at hk
  · rintro ⟨s, hs, hact, p, hps, hL, hk⟩
    exact ⟨p, ⟨s, ⟨hs, hact⟩, hps⟩, by simp [hL, hk]⟩

/-! ## Structural editor: word-association toggle
(src/lyrics_editor.rs, `show_line_translations`, lines 339-357) -/

/-- The checkbox handler of src/lyrics_editor.rs lines 347-357 on one
association list: `is_in_translation = list.contains(&word_index)`; when the
requested state differs, the index is pushed (include) or retained away
(exclude); when it already matches, nothing happens. -/
def toggleAssoc (assoc : List Nat) (i : Nat) (incl : Bool) : List Nat :=
  let isIn := assoc.contains i
  if incl = isIn then assoc
  else if incl then assoc ++ [i]
  else assoc.filter (fun x => x ≠ i)

/-- Applies `f` to the first list element satisfying `p`, leaving the rest
unchanged — the effect of `iter_mut().find(...)` followed by a mutation in
src/lyrics_editor.rs line 342-346. (The code unwraps the find; a segment
lacking an entry for the language would panic there, modelled as a no-op.) -/
def updateFirst {α : Type} (p : α → Bool) (f : α → α) : List α → List α
  | [] => []
  | x :: xs => if p x then f x :: xs else x :: updateFirst p f xs

/-- The toggle operation at segment level: the first translation pair whose
language id matches gets its association list toggled. -/
def toggle_segment_word_association (seg : LyricsSegment) (langId : Nat) (i : Nat)
    (incl : Bool) : LyricsSegment :=
  { seg with translations :=
      (updateFirst (fun p => p.1 == langId) (fun p => (p.1, toggleAssoc p.2 i incl))
        seg.translations) }

theorem updateFirst_updateFirst {α : Type} (p : α → Bool) (f g : α → α)
    (hpres : ∀ x, p (f x) = p x) :
    ∀ l : List α, updateFirst p g (updateFirst p f l) = updateFirst p (fun x => g (f x)) l := by
  intro l
  induction l with
  | nil => rfl
  | cons x xs ih =>
    by_cases h : p x = true
    · simp [updateFirst, h, hpres]
    · simp only [updateFirst, h]
      rw [if_neg (by simp [h]), if_neg (by simp [h]), ih]

theorem updateFirst_congr {α : Type} (p : α → Bool) (f g : α → α)
    (h : ∀ x, f x = g x) : ∀ l : List α, updateFirst p f l = updateFirst p g l := by
  intro l
  induction l with
  | nil => rfl
  | cons x xs ih => simp only [updateFirst, h, ih]

theorem toggleAssoc_of_mem (assoc : List Nat) (i : Nat) (hm : i ∈ assoc) :
    toggleAssoc assoc i true = assoc := by
  simp [toggleAssoc, hm]

theorem toggleAssoc_of_not_mem (assoc : List Nat) (i : Nat) (hm : i ∉ assoc) :
    toggleAssoc assoc i true = assoc ++ [i] := by
  simp [toggleAssoc, hm]

theorem toggleAssoc_include_idem (assoc : List Nat) (i : Nat) :
    toggleAssoc (toggleAssoc assoc i true) i true = toggleAssoc assoc i true := by
  by_cases hm : i ∈ assoc
  · rw [toggleAssoc_of_mem assoc i hm, toggleAssoc_of_mem assoc i hm]
  · rw [toggleAssoc_of_not_mem assoc i hm,
      toggleAssoc_of_mem _ i (by simp)]

theorem toggleAssoc_include_count (assoc : List Nat) (i : Nat) :
    (toggleAssoc assoc i true).count i = max (assoc.count i) 1 := by
  by_cases hm : i ∈ assoc
  · have h1 : 1 ≤ assoc.count i := List.count_pos_iff.mpr hm
    rw [toggleAssoc_of_mem assoc i hm, Nat.max_eq_left h1]
  · have h0 : assoc.count i = 0 := List.count_eq_zero.mpr hm
    rw [toggleAssoc_of_not_mem assoc i hm, List.count_append, h0]
    simp

/-- C7: adding a word association is idempotent — toggling the same index on
twice gives the same segment as toggling it once — and duplicates never
accumulate: the resulting multiplicity of the index in the association list is
`max` of its old multiplicity and 1. -/
theorem toggle_include_idempotent (seg : LyricsSegment) (langId : Nat) (i : Nat)
    (assoc : List Nat) :
    toggle_segment_word_association (toggle_segment_word_association seg langId i true)
        langId i true
      = toggle_segment_word_association seg langId i true ∧
    (toggleAssoc assoc i true).count i = max (assoc.count i) 1 := by
  refine ⟨?_, toggleAssoc_include_count assoc i⟩
  have key : updateFirst (fun p : Nat × List Nat => p.1 == langId)
      (fun p => (p.1, toggleAssoc p.2 i true))
      (updateFirst (fun p : Nat × List Nat => p.1 == langId)
        (fun p => (p.1, toggleAssoc p.2 i true)) seg.translations)
      = updateFirst (fun p : Nat × List Nat => p.1 == langId)
          (fun p => (p.1, toggleAssoc p.2 i true)) seg.translations := by
    have hcomp := updateFirst_updateFirst (fun p : Nat × List Nat => p.1 == langId)
      (fun p : Nat × List Nat => (p.1, toggleAssoc p.2 i true))
      (fun p : Nat × List Nat => (p.1, toggleAssoc p.2 i true))
      (fun _ => rfl) seg.translations
    refine hcomp.trans ?_
    exact updateFirst_congr _ _ _
      (fun p => by
        show (p.1, toggleAssoc (toggleAssoc p.2 i true) i true)
          = (p.1, toggleAssoc p.2 i true)
        rw [toggleAssoc_include_idem]) seg.translations
  exact congrArg (fun tr => ({ seg with translations := tr } : LyricsSegment)) key

/-! ## Structural editor: removing a translation word
(src/lyrics_editor.rs, `show_line_translations`, lines 312-328) -/

/-- The association fix-up of src/lyrics_editor.rs lines 319-324: every
occurrence of the removed index is dropped (`retain(|x| x != index)`), and
every remaining index greater than it is decremented by one. -/
def removeWordIndex (i : Nat) (assoc : List Nat) : List Nat :=
  (assoc.filter (fun x => x ≠ i)).map (fun x => if i < x then x - 1 else x)

/-- src/lyrics_editor.rs lines 312-328 for one deleted index: the word at
position `i` is removed from the line's word list for language `langId`
(`line_translation_pair.1.remove(*index)`) and every segment's association
list for that language is fixed up with `removeWordIndex`. -/
def fixSegmentAssociations (langId i : Nat) (s : LyricsSegment) : LyricsSegment :=
  { s with translations := (s.translations.map
      (fun p => if p.1 = langId then (p.1, removeWordIndex i p.2) else p)) }

def remove_translation_word (line : LyricsLine) (langId : Nat) (i : Nat) : LyricsLine :=
  { line with
    translations := (line.translations.map
      (fun p => if p.1 = langId then (p.1, p.2.eraseIdx i) else p)),
    original := (line.original.map (fixSegmentAssociations langId i)) }

theorem mem_removeWordIndex_of_gt {i j : Nat} {a : List Nat} (hj : j ∈ a) (hij : i < j) :
    j - 1 ∈ removeWordIndex i a := by
  have hne : j ≠ i := by omega
  refine List.mem_map.mpr ⟨j, List.mem_filter.mpr ⟨hj, by simpa using hne⟩, by simp [hij]⟩

theorem mem_removeWordIndex_of_lt {i j : Nat} {a : List Nat} (hj : j ∈ a) (hij : j < i) :
    j ∈ removeWordIndex i a := by
  have hne : j ≠ i := by omega
  have hnot : ¬ i < j := by omega
  refine List.mem_map.mpr ⟨j, List.mem_filter.mpr ⟨hj, by simpa using hne⟩, by simp [hnot]⟩

theorem of_mem_removeWordIndex {i j : Nat} {a : List Nat}
    (hj : j ∈ removeWordIndex i a) : (j < i ∧ j ∈ a) ∨ (i ≤ j ∧ j + 1 ∈ a) := by
  obtain ⟨x, hx, hval⟩ := List.mem_map.mp hj
  obtain ⟨hxa, hxne⟩ := List.mem_filter.mp hx
  have hxne' : x ≠ i := by simpa using hxne
  by_cases hlt : i < x
  · rw [if_pos hlt] at hval
    right
    have hxj : x = j + 1 := by omega
    exact ⟨by omega, hxj ▸ hxa⟩
  · rw [if_neg hlt] at hval
    left
    exact ⟨by omega, hval ▸ hxa⟩

theorem mem_removeWordIndex_self_iff (i : Nat) (a : List Nat) :
    i ∈ removeWordIndex i a ↔ i + 1 ∈ a := by
  constructor
  · intro h
    rcases of_mem_removeWordIndex h with ⟨h1, _⟩ | ⟨_, h2⟩
    · omega
    · exact h2
  · intro h
    simpa using mem_removeWordIndex_of_gt h (by omega)

theorem zip_self_map {α β : Type} (l : List α) (f : α → β) :
    l.zip (l.map f) = l.map (fun x => (x, f x)) := by
  induction l with
  | nil => rfl
  | cons x xs ih => rw [List.map_cons, List.zip_cons_cons, ih, List.map_cons]

/-- C1 (amended): for `remove_translation_word(line, L, i)` the line/segment
structure is preserved elementwise; the line's word list for `L` loses exactly
the word at position `i` (it becomes `take i ++ drop (i+1)` of the old list);
and every segment's association list for `L` is renumbered: every occurrence
of `i` is deleted, every recorded `j > i` is now present as `j - 1`, every
recorded `j < i` is still present, every index in the new list stems from such
an old index, and `i` itself is present afterwards exactly when `i + 1` was
recorded before (so `i` is absent unless an old association `i + 1` was
decremented onto it). -/
theorem remove_translation_word_spec (line : LyricsLine) (L i : Nat) :
    ((remove_translation_word line L i).translations.length = line.translations.length) ∧
    ((remove_translation_word line L i).original.length = line.original.length) ∧
    (∀ q ∈ line.translations.zip (remove_translation_word line L i).translations,
      q.1.1 = L → q.2.2 = q.1.2.take i ++ q.1.2.drop (i + 1)) ∧
    (∀ pr ∈ line.original.zip (remove_translation_word line L i).original,
      ∀ q ∈ pr.1.translations.zip pr.2.translations, q.1.1 = L →
        q.2.1 = L ∧
        (∀ j ∈ q.1.2, i < j → j - 1 ∈ q.2.2) ∧
        (∀ j ∈ q.1.2, j < i → j ∈ q.2.2) ∧
        (∀ j ∈ q.2.2, (j < i ∧ j ∈ q.1.2) ∨ (i ≤ j ∧ j + 1 ∈ q.1.2)) ∧
        (i ∈ q.2.2 ↔ i + 1 ∈ q.1.2)) := by
  refine ⟨by simp [remove_translation_word], by simp [remove_translation_word], ?_, ?_⟩
  · intro q hq hL
    rw [show (remove_translation_word line L i).translations
        = line.translations.map (fun p => if p.1 = L then (p.1, p.2.eraseIdx i) else p)
        from rfl, zip_self_map] at hq
    obtain ⟨p, _, rfl⟩ := List.mem_map.mp hq
    simp only at hL
    simp [hL, List.eraseIdx_eq_take_drop_succ]
  · intro pr hpr q hq hL
    rw [show (remove_translation_word line L i).original
        = line.original.map (fixSegmentAssociations L i) from rfl,
      zip_self_map] at hpr
    obtain ⟨s, _, rfl⟩ := List.mem_map.mp hpr
    rw [show (fixSegmentAssociations L i s).translations
        = s.translations.map
            (fun p => if p.1 = L then (p.1, removeWordIndex i p.2) else p) from rfl,
      zip_self_map] at hq
    obtain ⟨p, _, rfl⟩ := List.mem_map.mp hq
    simp only at hL
    refine ⟨by simp [hL], ?_, ?_, ?_, ?_⟩
    · intro j hj hij
      simpa [hL] using mem_removeWordIndex_of_gt hj hij
    · intro j hj hij
      simpa [hL] using mem_removeWordIndex_of_lt hj hij
    · intro j hj
      exact of_mem_removeWordIndex (by simpa [hL] using hj)
    · simpa [hL] using mem_removeWordIndex_self_iff i p.2

/-- A concrete segment for exercising C1: association list `[1]` for
language `5`. -/
def exSegC1 : LyricsSegment :=
  { begin := 0, end_ := 500, text := "Hello", translations := [(5, [1])] }

/-- A concrete line for exercising C1: word list `["Hola", "Mundo"]` for
language `5`, one segment associated with word `1`. -/
def exLineC1 : LyricsLine :=
  { begin := 0, end_ := 1000, agent_id := "", original := [exSegC1], uuid := 7,
    translations := [(5, [String.mk ['H','o','l','a'], String.mk ['M','u','n','d','o']])] }

/-- C1 counterexample: the claim asserts that after removing word index `i`,
`i` is absent from every segment's association list for the language. With
association list `[1]` and removal of index `0`, the fixed-up list is `[0]`
(the old `1` decremented), so the removed index `0` is present. -/
theorem remove_translation_word_absence_counterexample :
    ¬ (∀ s ∈ (remove_translation_word exLineC1 5 0).original,
        ∀ p ∈ s.translations, p.1 = 5 → (0 : Nat) ∉ p.2) := by
  decide

/-- Witness for C1 (amended) at a concrete input: the removed index `0` is
present in the fixed-up association list precisely because `1` was recorded. -/
theorem remove_translation_word_spec_witness :
    (0 ∈ removeWordIndex 0 [1] ↔ 0 + 1 ∈ ([1] : List Nat)) :=
  ((remove_translation_word_spec exLineC1 5 0).2.2.2
    (exSegC1, { exSegC1 with translations := [(5, removeWordIndex 0 [1])] })
    (by decide)
    ((5, [1]), (5, removeWordIndex 0 [1])) (by decide) rfl).2.2.2.2

/-! ## Structural editor: language registry
(src/lyrics_editor.rs, `show_translation_languages_list`, lines 204-254) -/

/-- Number of translation pairs keyed by `id` in an association list. -/
def keyCount {α : Type} (id : Nat) (l : List (Nat × α)) : Nat :=
  (l.filter (fun p => p.1 = id)).length

/-- src/lyrics_editor.rs line 234: `segment.translations.push((new_id, Vec::new()))`. -/
def addLangToSegment (newId : Nat) (s : LyricsSegment) : LyricsSegment :=
  { s with translations := (s.translations ++ [(newId, [])]) }

/-- src/lyrics_editor.rs lines 231-236: the new language gets an empty entry in
the line's translations and in every segment's translations. -/
def addLangToLine (newId : Nat) (l : LyricsLine) : LyricsLine :=
  { l with translations := (l.translations ++ [(newId, [])]),
           original := (l.original.map (addLangToSegment newId)) }

/-- src/lyrics_editor.rs lines 220-237, the "Add Language" handler: a fresh id
(`Uuid::new_v4()`, modelled as the parameter `newId`) is appended to the
metadata registry and an empty entry keyed by it is appended to every line and
segment. -/
def add_language (d : BabelLyrics) (name : String) (newId : Nat) : BabelLyrics :=
  { metadata := { agents := d.metadata.agents,
                  translations := (d.metadata.translations
                    ++ [{ language := name, id := newId }]) },
    lyrics := { lines := (d.lyrics.lines.map (addLangToLine newId)) } }

/-- src/lyrics_editor.rs line 249: `segment.translations.retain(|x| &x.0 != id)`. -/
def removeLangFromSegment (id : Nat) (s : LyricsSegment) : LyricsSegment :=
  { s with translations := (s.translations.filter (fun x => x.1 ≠ id)) }

/-- src/lyrics_editor.rs lines 246-251. -/
def removeLangFromLine (id : Nat) (l : LyricsLine) : LyricsLine :=
  { l with translations := (l.translations.filter (fun x => x.1 ≠ id)),
           original := (l.original.map (removeLangFromSegment id)) }

/-- src/lyrics_editor.rs lines 239-252, the delete handler: the language is
retained away from the metadata registry and from every line's and segment's
translations. -/
def remove_language (d : BabelLyrics) (id : Nat) : BabelLyrics :=
  { metadata := { agents := d.metadata.agents,
                  translations := (d.metadata.translations.filter (fun x => x.id ≠ id)) },
    lyrics := { lines := (d.lyrics.lines.map (removeLangFromLine id)) } }

/-- The one-entry-per-registered-language invariant of the spec: every line and
every segment has exactly one translations entry keyed by each registered
language id. -/
def InvDoc (d : BabelLyrics) : Prop :=
  ∀ l ∈ d.lyrics.lines, ∀ e ∈ d.metadata.translations,
    keyCount e.id l.translations = 1 ∧
    ∀ s ∈ l.original, keyCount e.id s.translations = 1

/-- Freshness of a candidate language id (what `Uuid::new_v4()` provides): the
id occurs nowhere in the document yet. -/
def FreshId (d : BabelLyrics) (newId : Nat) : Prop :=
  newId ∉ d.metadata.translations.map TranslationEntry.id ∧
  ∀ l ∈ d.lyrics.lines, newId ∉ l.translations.map Prod.fst ∧
    ∀ s ∈ l.original, newId ∉ s.translations.map Prod.fst

instance (d : BabelLyrics) : Decidable (InvDoc d) := by
  unfold InvDoc
  infer_instance

instance (d : BabelLyrics) (newId : Nat) : Decidable (FreshId d newId) := by
  unfold FreshId
  infer_instance

theorem keyCount_append {α : Type} (id : Nat) (l1 l2 : List (Nat × α)) :
    keyCount id (l1 ++ l2) = keyCount id l1 + keyCount id l2 := by
  simp [keyCount, List.filter_append]

theorem keyCount_pair {α : Type} (id k : Nat) (v : α) :
    keyCount id [(k, v)] = if k = id then 1 else 0 := by
  by_cases h : k = id <;> simp [keyCount, h]

theorem keyCount_eq_zero_of_not_mem {α : Type} (id : Nat) (l : List (Nat × α))
    (h : id ∉ l.map Prod.fst) : keyCount id l = 0 := by
  simp only [keyCount, List.length_eq_zero, List.filter_eq_nil_iff,
    decide_eq_true_eq]
  intro p hp hpe
  exact h (List.mem_map.mpr ⟨p, hp, hpe⟩)

/-- C5: on a document satisfying the one-entry-per-language invariant,
`add_language` with a fresh id appends the new language to the metadata
registry, and afterwards every line and segment again has exactly one
translations entry per registered language (in particular exactly one, empty,
entry keyed by the new id). -/
theorem add_language_spec (d : BabelLyrics) (name : String) (newId : Nat)
    (hinv : InvDoc d) (hfresh : FreshId d newId) :
    (add_language d name newId).metadata.translations
      = d.metadata.translations ++ [{ language := name, id := newId }] ∧
    InvDoc (add_language d name newId) := by
  refine ⟨rfl, ?_⟩
  intro l' hl' e he
  rw [show (add_language d name newId).lyrics.lines
      = d.lyrics.lines.map (addLangToLine newId) from rfl] at hl'
  obtain ⟨l, hl, rfl⟩ := List.mem_map.mp hl'
  rw [show (add_language d name newId).metadata.translations
      = d.metadata.translations ++ [{ language := name, id := newId }] from rfl] at he
  rcases List.mem_append.mp he with he | he
  · have hne : newId ≠ e.id := by
      intro h
      exact hfresh.1 (h ▸ List.mem_map.mpr ⟨e, he, rfl⟩)
    have hcount := hinv l hl e he
    constructor
    · rw [show (addLangToLine newId l).translations
          = l.translations ++ [(newId, ([] : List String))] from rfl,
        keyCount_append, keyCount_pair, if_neg hne, hcount.1]
    · intro s' hs'
      rw [show (addLangToLine newId l).original
          = l.original.map (addLangToSegment newId) from rfl] at hs'
      obtain ⟨s, hs, rfl⟩ := List.mem_map.mp hs'
      rw [show (addLangToSegment newId s).translations
          = s.translations ++ [(newId, ([] : List Nat))] from rfl,
        keyCount_append, keyCount_pair, if_neg hne, hcount.2 s hs]
  · have he' : e = { language := name, id := newId } := by simpa using he
    subst he'
    obtain ⟨hfl, hfs⟩ := hfresh.2 l hl
    constructor
    · rw [show (addLangToLine newId l).translations
          = l.translations ++ [(newId, ([] : List String))] from rfl,
        keyCount_append, keyCount_pair, if_pos rfl,
        keyCount_eq_zero_of_not_mem _ _ hfl]
    · intro s' hs'
      rw [show (addLangToLine newId l).original
          = l.original.map (addLangToSegment newId) from rfl] at hs'
      obtain ⟨s, hs, rfl⟩ := List.mem_map.mp hs'
      rw [show (addLangToSegment newId s).translations
          = s.translations ++ [(newId, ([] : List Nat))] from rfl,
        keyCount_append, keyCount_pair, if_pos rfl,
        keyCount_eq_zero_of_not_mem _ _ (hfs s hs)]

/-- A concrete well-formed document with one registered language (id 0), one
line and one segment. -/
def exDocC5 : BabelLyrics :=
  { metadata := { agents := [], translations := [{ language := "es", id := 0 }] },
    lyrics := { lines := [
      { begin := 0, end_ := 1000, agent_id := "", uuid := 3,
        original := [
          { begin := 0, end_ := 500, text := "Hello", translations := [(0, [])] }],
        translations := [(0, [])] }] } }

/-- Witness for C5 at a concrete input: the example document satisfies the
invariant, id 1 is fresh for it, and the invariant still holds after adding a
language with id 1. -/
theorem add_language_spec_witness :
    InvDoc exDocC5 ∧ FreshId exDocC5 1 ∧ InvDoc (add_language exDocC5 ("fr") 1) :=
  ⟨by decide, by decide,
    (add_language_spec exDocC5 ("fr") 1 (by decide) (by decide)).2⟩

theorem filter_key_ne_eq_self {α : Type} (id : Nat) (l : List (Nat × α))
    (h : id ∉ l.map Prod.fst) : l.filter (fun x => x.1 ≠ id) = l := by
  apply List.filter_eq_self.mpr
  intro a ha
  simp only [ne_eq, decide_not, Bool.not_eq_eq_eq_not, Bool.not_true,
    decide_eq_false_iff_not]
  intro he
  exact h (List.mem_map.mpr ⟨a, ha, he⟩)

theorem filter_entry_ne_eq_self (id : Nat) (l : List TranslationEntry)
    (h : id ∉ l.map TranslationEntry.id) : l.filter (fun x => x.id ≠ id) = l := by
  apply List.filter_eq_self.mpr
  intro a ha
  simp only [ne_eq, decide_not, Bool.not_eq_eq_eq_not, Bool.not_true,
    decide_eq_false_iff_not]
  intro he
  exact h (List.mem_map.mpr ⟨a, ha, he⟩)

theorem map_eq_self_of {α : Type} (f : α → α) (l : List α)
    (h : ∀ x ∈ l, f x = x) : l.map f = l := by
  induction l with
  | nil => rfl
  | cons x xs ih =>
    rw [List.map_cons, h x (by simp), ih (fun y hy => h y (by simp [hy]))]

/-- C6 (amended): after `remove_language(id)` the metadata registry and every
line's and segment's translations contain no entry keyed by `id`; and when `id`
is not registered the operation leaves the document unchanged provided no line
or segment carries a stray entry keyed by `id` (documents built by the editor
never do). -/
theorem remove_language_spec (d : BabelLyrics) (id : Nat) :
    (∀ e ∈ (remove_language d id).metadata.translations, e.id ≠ id) ∧
    (∀ l ∈ (remove_language d id).lyrics.lines,
      (∀ p ∈ l.translations, p.1 ≠ id) ∧
      ∀ s ∈ l.original, ∀ p ∈ s.translations, p.1 ≠ id) ∧
    (id ∉ d.metadata.translations.map TranslationEntry.id →
      (∀ l ∈ d.lyrics.lines, id ∉ l.translations.map Prod.fst ∧
        ∀ s ∈ l.original, id ∉ s.translations.map Prod.fst) →
      remove_language d id = d) := by
  refine ⟨?_, ?_, ?_⟩
  · intro e he
    have := (List.mem_filter.mp he).2
    simpa using this
  · intro l' hl'
    rw [show (remove_language d id).lyrics.lines
        = d.lyrics.lines.map (removeLangFromLine id) from rfl] at hl'
    obtain ⟨l, hl, rfl⟩ := List.mem_map.mp hl'
    constructor
    · intro p hp
      have := (List.mem_filter.mp hp).2
      simpa using this
    · intro s' hs' p hp
      rw [show (removeLangFromLine id l).original
          = l.original.map (removeLangFromSegment id) from rfl] at hs'
      obtain ⟨s, hs, rfl⟩ := List.mem_map.mp hs'
      have := (List.mem_filter.mp hp).2
      simpa using this
  · intro hmeta hlines
    have hline : ∀ l ∈ d.lyrics.lines, removeLangFromLine id l = l := by
      intro l hl
      obtain ⟨h1, h2⟩ := hlines l hl
      have hseg : ∀ s ∈ l.original, removeLangFromSegment id s = s := by
        intro s hs
        unfold removeLangFromSegment
        rw [filter_key_ne_eq_self _ _ (h2 s hs)]
      unfold removeLangFromLine
      rw [filter_key_ne_eq_self _ _ h1, map_eq_self_of _ _ hseg]
    unfold remove_language
    rw [filter_entry_ne_eq_self _ _ hmeta, map_eq_self_of _ _ hline]

/-- A document with an unregistered stray entry: the metadata registry is
empty but one line carries a translations entry keyed by 0. -/
def exDocStray : BabelLyrics :=
  { metadata := { agents := [], translations := [] },
    lyrics := { lines := [
      { begin := 0, end_ := 0, agent_id := "", uuid := 1,
        original := [], translations := [(0, ["x"])] }] } }

/-- C6 counterexample: id 0 is not registered, yet `remove_language(0)` is not
a no-op — the line's stray entry keyed by 0 gets removed, so the document
changes. -/
theorem remove_language_noop_counterexample :
    (0 ∉ exDocStray.metadata.translations.map TranslationEntry.id) ∧
    remove_language exDocStray 0 ≠ exDocStray := by
  decide

/-- Witness for C6 (amended) at a concrete input: removing the unregistered id
1 from the stray-free example document is a no-op. -/
theorem remove_language_spec_witness :
    remove_language exDocC5 1 = exDocC5 :=
  (remove_language_spec exDocC5 1).2.2 (by decide) (by decide)

/-! ## Serialized import/export (src/lyrics.rs serde derives;
export at src/lyrics_editor.rs lines 95-107, import at lines 525-556) -/

/-- A JSON value, the target of `serde_json`. Numbers cover the integer
millisecond durations and word indices this format uses; uuids are modelled by
their numeric tag. -/
inductive Json where
  | num : Int → Json
  | str : String → Json
  | arr : List Json → Json
  | obj : List (String × Json) → Json

def Json.asNum : Json → Option Int
  | .num n => some n
  | _ => none

def Json.asStr : Json → Option String
  | .str s => some s
  | _ => none

def Json.asArr : Json → Option (List Json)
  | .arr xs => some xs
  | _ => none

def Json.getField : Json → String → Option Json
  | .obj fields, name => (fields.find? (fun p => p.1 == name)).map Prod.snd
  | _, _ => none

/-- `Option`-valued traversal used by the decoders. -/
def omapM {α β : Type} (f : α → Option β) : List α → Option (List β)
  | [] => some []
  | x :: xs => do
    let y ← f x
    let ys ← omapM f xs
    pure (y :: ys)

/-- serde encoding of one segment translation pair `(Uuid, Vec<usize>)`. -/
def encodeSegTrans (p : Nat × List Nat) : Json :=
  .arr [.num p.1, .arr (p.2.map (fun n : Nat => Json.num (n : Int)))]

/-- serde encoding of one line translation pair `(Uuid, Vec<String>)`. -/
def encodeLineTrans (p : Nat × List String) : Json :=
  .arr [.num p.1, .arr (p.2.map Json.str)]

/-- serde encoding of `LyricsSegment`, fields in declaration order; the
durations are emitted as integer milliseconds
(`serde_with::DurationMilliSeconds<i64>`). -/
def encodeSegment (s : LyricsSegment) : Json :=
  .obj [("begin", .num s.begin), ("end", .num s.end_), ("text", .str s.text),
        ("translations", .arr (s.translations.map encodeSegTrans))]

/-- serde encoding of `LyricsLine`. -/
def encodeLine (l : LyricsLine) : Json :=
  .obj [("begin", .num l.begin), ("end", .num l.end_), ("agent_id", .str l.agent_id),
        ("original", .arr (l.original.map encodeSegment)), ("uuid", .num l.uuid),
        ("translations", .arr (l.translations.map encodeLineTrans))]

def encodeAgent (a : Agent) : Json :=
  .obj [("id", .str a.id)]

def encodeTranslationEntry (e : TranslationEntry) : Json :=
  .obj [("language", .str e.language), ("id", .num e.id)]

def encodeMetadata (m : LyricsMetadata) : Json :=
  .obj [("agents", .arr (m.agents.map encodeAgent)),
        ("translations", .arr (m.translations.map encodeTranslationEntry))]

/-- The export of src/lyrics_editor.rs line 104, `serde_json::to_writer`:
the serialized form of a whole document. -/
def export_babel_lyrics (d : BabelLyrics) : Json :=
  .obj [("metadata", encodeMetadata d.metadata),
        ("lyrics", .obj [("lines", .arr (d.lyrics.lines.map encodeLine))])]

def decodeNat (j : Json) : Option Nat := do
  let n ← j.asNum
  if 0 ≤ n then some n.toNat else none

def decodeSegTrans (j : Json) : Option (Nat × List Nat) := do
  let xs ← j.asArr
  match xs with
  | [a, b] => do
    let id ← decodeNat a
    let bs ← b.asArr
    let l ← omapM decodeNat bs
    pure (id, l)
  | _ => none

def decodeLineTrans (j : Json) : Option (Nat × List String) := do
  let xs ← j.asArr
  match xs with
  | [a, b] => do
    let id ← decodeNat a
    let bs ← b.asArr
    let l ← omapM Json.asStr bs
    pure (id, l)
  | _ => none

def decodeSegment (j : Json) : Option LyricsSegment := do
  let b ← (← j.getField ("begin")).asNum
  let e ← (← j.getField ("end")).asNum
  let t ← (← j.getField ("text")).asStr
  let trs ← (← j.getField ("translations")).asArr
  let tr ← omapM decodeSegTrans trs
  pure { begin := b, end_ := e, text := t, translations := tr }

def decodeLine (j : Json) : Option LyricsLine := do
  let b ← (← j.getField ("begin")).asNum
  let e ← (← j.getField ("end")).asNum
  let ag ← (← j.getField ("agent_id")).asStr
  let origs ← (← j.getField ("original")).asArr
  let orig ← omapM decodeSegment origs
  let u ← decodeNat (← j.getField ("uuid"))
  let trs ← (← j.getField ("translations")).asArr
  let tr ← omapM decodeLineTrans trs
  pure { begin := b, end_ := e, agent_id := ag, original := orig, uuid := u,
         translations := tr }

def decodeAgent (j : Json) : Option Agent := do
  let i ← (← j.getField ("id")).asStr
  pure { id := i }

def decodeTranslationEntry (j : Json) : Option TranslationEntry := do
  let lang ← (← j.getField ("language")).asStr
  let i ← decodeNat (← j.getField ("id"))
  pure { language := lang, id := i }

def decodeMetadata (j : Json) : Option LyricsMetadata := do
  let ags ← (← j.getField ("agents")).asArr
  let agents ← omapM decodeAgent ags
  let trs ← (← j.getField ("translations")).asArr
  let translations ← omapM decodeTranslationEntry trs
  pure { agents := agents, translations := translations }

/-- The import of src/lyrics_editor.rs line 542, `serde_json::from_reader`:
parse a serialized document, failing (`None`) on malformed input. -/
def import_serialized (j : Json) : Option BabelLyrics := do
  let md ← decodeMetadata (← j.getField ("metadata"))
  let lns ← (← (← j.getField ("lyrics")).getField ("lines")).asArr
  let lines ← omapM decodeLine lns
  pure { metadata := md, lyrics := { lines := lines } }

theorem omapM_map {α β : Type} (f : α → β) (g : β → Option α)
    (l : List α) (h : ∀ a ∈ l, g (f a) = some a) :
    omapM g (l.map f) = some l := by
  induction l with
  | nil => rfl
  | cons x xs ih =>
    rw [List.map_cons]
    show (do
      let y ← g (f x)
      let ys ← omapM g (xs.map f)
      pure (y :: ys) : Option (List α)) = some (x :: xs)
    rw [h x (by simp), ih (fun a ha => h a (by simp [ha]))]
    rfl

theorem decodeNat_encode (n : Nat) : decodeNat (Json.num n) = some n := by
  show (do
    let m ← (Json.num (n : Int)).asNum
    if 0 ≤ m then some m.toNat else none : Option Nat) = some n
  rw [show (Json.num (n : Int)).asNum = some (n : Int) from rfl]
  simp

theorem decodeSegTrans_encode (p : Nat × List Nat) :
    decodeSegTrans (encodeSegTrans p) = some p := by
  show decodeSegTrans
    (.arr [.num p.1, .arr (p.2.map (fun n : Nat => Json.num (n : Int)))]) = some p
  simp only [decodeSegTrans, Json.asArr, Option.bind_eq_bind, Option.some_bind]
  rw [decodeNat_encode p.1]
  simp only [Option.some_bind, Json.asArr]
  rw [omapM_map (fun n : Nat => Json.num (n : Int)) decodeNat p.2
    (fun a _ => decodeNat_encode a)]
  rfl

theorem decodeLineTrans_encode (p : Nat × List String) :
    decodeLineTrans (encodeLineTrans p) = some p := by
  show decodeLineTrans (.arr [.num p.1, .arr (p.2.map Json.str)]) = some p
  simp only [decodeLineTrans, Json.asArr, Option.bind_eq_bind, Option.some_bind]
  rw [decodeNat_encode p.1]
  simp only [Option.some_bind, Json.asArr]
  rw [omapM_map Json.str Json.asStr p.2 (fun a _ => rfl)]
  rfl

theorem decodeSegment_encode (s : LyricsSegment) :
    decodeSegment (encodeSegment s) = some s := by
  have h1 : (encodeSegment s).getField ("begin") = some (.num s.begin) := rfl
  have h2 : (encodeSegment s).getField ("end") = some (.num s.end_) := rfl
  have h3 : (encodeSegment s).getField ("text") = some (.str s.text) := rfl
  have h4 : (encodeSegment s).getField ("translations")
      = some (.arr (s.translations.map encodeSegTrans)) := rfl
  simp only [decodeSegment, h1, h2, h3, h4, Option.bind_eq_bind, Option.some_bind,
    Json.asNum, Json.asStr, Json.asArr]
  rw [omapM_map encodeSegTrans decodeSegTrans s.translations
    (fun a _ => decodeSegTrans_encode a)]
  rfl

theorem decodeLine_encode (l : LyricsLine) :
    decodeLine (encodeLine l) = some l := by
  have h1 : (encodeLine l).getField ("begin") = some (.num l.begin) := rfl
  have h2 : (encodeLine l).getField ("end") = some (.num l.end_) := rfl
  have h3 : (encodeLine l).getField ("agent_id") = some (.str l.agent_id) := rfl
  have h4 : (encodeLine l).getField ("original")
      = some (.arr (l.original.map encodeSegment)) := rfl
  have h5 : (encodeLine l).getField ("uuid") = some (.num l.uuid) := rfl
  have h6 : (encodeLine l).getField ("translations")
      = some (.arr (l.translations.map encodeLineTrans)) := rfl
  simp only [decodeLine, h1, h2, h3, h4, h5, h6, Option.bind_eq_bind,
    Option.some_bind, Json.asNum, Json.asStr, Json.asArr]
  rw [omapM_map encodeSegment decodeSegment l.original
    (fun a _ => decodeSegment_encode a)]
  simp only [Option.some_bind]
  rw [decodeNat_encode l.uuid]
  simp only [Option.some_bind]
  rw [omapM_map encodeLineTrans decodeLineTrans l.translations
    (fun a _ => decodeLineTrans_encode a)]
  rfl

theorem decodeAgent_encode (a : Agent) : decodeAgent (encodeAgent a) = some a := rfl

theorem decodeTranslationEntry_encode (e : TranslationEntry) :
    decodeTranslationEntry (encodeTranslationEntry e) = some e := by
  have h1 : (encodeTranslationEntry e).getField ("language")
      = some (.str e.language) := rfl
  have h2 : (encodeTranslationEntry e).getField ("id") = some (.num e.id) := rfl
  simp only [decodeTranslationEntry, h1, h2, Option.bind_eq_bind,
    Option.some_bind, Json.asStr]
  rw [decodeNat_encode e.id]
  rfl

theorem decodeMetadata_encode (m : LyricsMetadata) :
    decodeMetadata (encodeMetadata m) = some m := by
  have h1 : (encodeMetadata m).getField ("agents")
      = some (.arr (m.agents.map encodeAgent)) := rfl
  have h2 : (encodeMetadata m).getField ("translations")
      = some (.arr (m.translations.map encodeTranslationEntry)) := rfl
  simp only [decodeMetadata, h1, h2, Option.bind_eq_bind, Option.some_bind,
    Json.asArr]
  rw [omapM_map encodeAgent decodeAgent m.agents (fun a _ => decodeAgent_encode a)]
  simp only [Option.some_bind]
  rw [omapM_map encodeTranslationEntry decodeTranslationEntry m.translations
    (fun a _ => decodeTranslationEntry_encode a)]
  rfl

theorem import_export (d : BabelLyrics) :
    import_serialized (export_babel_lyrics d) = some d := by
  have h1 : (export_babel_lyrics d).getField ("metadata")
      = some (encodeMetadata d.metadata) := rfl
  have h2 : (export_babel_lyrics d).getField ("lyrics")
      = some (.obj [("lines", .arr (d.lyrics.lines.map encodeLine))]) := rfl
  simp only [import_serialized, h1, h2, Option.bind_eq_bind, Option.some_bind]
  rw [decodeMetadata_encode d.metadata]
  simp only [Option.some_bind]
  rw [show (Json.obj [("lines", .arr (d.lyrics.lines.map encodeLine))]).getField ("lines")
      = some (.arr (d.lyrics.lines.map encodeLine)) from rfl]
  simp only [Option.some_bind, Json.asArr]
  rw [omapM_map encodeLine decodeLine d.lyrics.lines (fun a _ => decodeLine_encode a)]
  rfl

/-- C4: the export → import → export round trip is the identity on exports —
importing a document's serialized form succeeds, and re-exporting the imported
document reproduces the original serialized form exactly (all identifiers,
millisecond timestamps, ordering and nested translation structures included). -/
theorem export_import_export_roundtrip (d : BabelLyrics) :
    (import_serialized (export_babel_lyrics d)).map export_babel_lyrics
      = some (export_babel_lyrics d) := by
  rw [import_export d]
  rfl

/-! ## Loader / flag protocol (src/lyrics_editor.rs `json_lyrics_file_loader`
lines 525-556, receiver in src/app.rs `update` lines 202-214) -/

/-- The empty document. -/
def emptyDoc : BabelLyrics :=
  { metadata := { agents := [], translations := [] }, lyrics := { lines := [] } }

/-- The shared state touched by a lyrics load: the `arc_loading` boolean and
the two mpsc channels (modelled as message queues). -/
structure LoaderState where
  loading : Bool
  detailsQueue : List (Option String × Option String)
  dataQueue : List BabelLyrics

def initLoaderState : LoaderState :=
  { loading := false, detailsQueue := [], dataQueue := [] }

/-- How far a lyrics-file load gets: no file picked, the picked file fails to
open, its content fails to parse, or everything succeeds. -/
inductive LoadOutcome where
  | noFile
  | openError
  | parseError
  | parseOk

/-- src/lyrics_editor.rs lines 525-556: once a file is picked the flag is set;
a details message is sent only after the file opens; the parsed document is
sent only after parsing succeeds. On open failure only `eprintln!` runs — no
message is sent and the flag is not touched again. -/
def json_lyrics_file_loader (st : LoaderState) (o : LoadOutcome)
    (path name : String) (d : BabelLyrics) : LoaderState :=
  match o with
  | .noFile => st
  | .openError => { st with loading := true }
  | .parseError =>
    { st with
      loading := true,
      detailsQueue := (st.detailsQueue ++ [(some path, some name)]) }
  | .parseOk =>
    { st with
      loading := true,
      detailsQueue := (st.detailsQueue ++ [(some path, some name)]),
      dataQueue := (st.dataQueue ++ [d]) }

/-- src/app.rs lines 202-208 (and src/lyrics_editor.rs lines 109-113): each
frame, `try_recv` on the details channel; on receipt the loading flag is set
to false. This is the only place the flag is ever cleared. -/
def poll_lyrics_details (st : LoaderState) : LoaderState :=
  match st.detailsQueue with
  | [] => st
  | _ :: rest => { st with loading := false, detailsQueue := rest }

/-- C8, evaluated at the failing input: when the picked file cannot be opened,
the loader leaves the loading flag set and the details queue empty, so no
later poll can ever clear the flag — the load fails but the flag does not end
up cleared. A parse failure, by contrast, does end with the flag cleared
because the details message was sent before parsing. -/
theorem loading_flag_stuck_on_open_error :
    (poll_lyrics_details
      (json_lyrics_file_loader initLoaderState .openError ("p") ("n") emptyDoc)).loading
        = true ∧
    (poll_lyrics_details
      (json_lyrics_file_loader initLoaderState .openError ("p") ("n") emptyDoc)).detailsQueue
        = [] ∧
    (poll_lyrics_details
      (json_lyrics_file_loader initLoaderState .parseError ("p") ("n") emptyDoc)).loading
        = false :=
  ⟨rfl, rfl, rfl⟩

/-! ## Export error path (src/lyrics_editor.rs lines 95-107) -/

/-- Whether `std::fs::File::create(&path)` succeeds. -/
inductive CreateOutcome where
  | ok
  | createError

/-- Result of the spawned export task. -/
inductive ExportOutcome where
  | noFileChosen
  | wrote (j : Json)
  | panicked

/-- src/lyrics_editor.rs lines 95-107, the "Export Babel Lyrics" task: if a
save path is chosen, `File::create(&path).unwrap()` — an unwrap that panics
the task when creation fails; on success `serde_json::to_writer` writes the
serialized document (its own error is discarded by `let _ =`). The
`lyrics.as_ref().unwrap()` likewise panics if no document is loaded, which the
UI prevents by disabling the button. -/
def export_lyrics_to_file (lyrics : Option BabelLyrics) (dialog : Option String)
    (co : CreateOutcome) : ExportOutcome :=
  match dialog with
  | none => .noFileChosen
  | some _ =>
    match co with
    | .createError => .panicked
    | .ok =>
      match lyrics with
      | some d => .wrote (export_babel_lyrics d)
      | none => .panicked

/-- C9, evaluated at the failing input: with a document loaded and a chosen
target path whose creation fails, the export task panics instead of failing
with a clear error. -/
theorem export_panics_when_create_fails :
    export_lyrics_to_file (some emptyDoc) (some ("out.json")) .createError
      = .panicked :=
  rfl

/-! ## Per-frame window-flag safety (src/app.rs `update`) -/

/-- The slice of `BabelPlayerApp` state that decides whether the
`self.lyrics.as_ref().unwrap()` calls at src/app.rs lines 352 and 362 can
panic. -/
structure AppLyricsState where
  lyrics : Option BabelLyrics
  show_main_lyrics_window : Bool
  show_captions_window : Bool

/-- Initial state (src/app.rs lines 105, 112-113): no document, both window
flags false. -/
def initAppState : AppLyricsState :=
  { lyrics := none, show_main_lyrics_window := false, show_captions_window := false }

/-- The events of `update` that touch this state: receiving a document on the
lyrics channel (lines 210-214), and the two checkboxes (lines 220-223), which
are rendered — hence can fire — only while `self.lyrics.is_some()`. The
document is never reset to `None`. -/
inductive AppEvent where
  | recvLyrics (d : BabelLyrics)
  | setMainWindow (b : Bool)
  | setCaptionsWindow (b : Bool)

def appStep (s : AppLyricsState) (e : AppEvent) : AppLyricsState :=
  match e with
  | .recvLyrics d =>
    { lyrics := some d, show_main_lyrics_window := true, show_captions_window := true }
  | .setMainWindow b =>
    if s.lyrics.isSome then { s with show_main_lyrics_window := b } else s
  | .setCaptionsWindow b =>
    if s.lyrics.isSome then { s with show_captions_window := b } else s

/-- States reachable from startup by any sequence of events. -/
inductive ReachableApp : AppLyricsState → Prop where
  | init : ReachableApp initAppState
  | step {s : AppLyricsState} (e : AppEvent) :
      ReachableApp s → ReachableApp (appStep s e)

/-- C10: in every reachable application state, if the main-lyrics-window flag
or the captions-window flag is set then a document is loaded, so the
`self.lyrics.as_ref().unwrap()` calls guarded by those flags never panic. -/
theorem lyrics_some_when_window_shown (s : AppLyricsState) (hr : ReachableApp s)
    (hshow : s.show_main_lyrics_window = true ∨ s.show_captions_window = true) :
    s.lyrics.isSome = true := by
  revert hshow
  induction hr with
  | init =>
    intro hshow
    rcases hshow with h | h <;> simp [initAppState] at h
  | @step s e hr ih =>
    intro hshow
    cases e with
    | recvLyrics d => simp [appStep]
    | setMainWindow b =>
      by_cases h : s.lyrics.isSome = true
      · simp [appStep, h]
      · have hf : s.lyrics.isSome = false := by simpa using h
        simp only [appStep, hf, Bool.false_eq_true, if_false] at hshow
        have hsome := ih hshow
        rw [hf] at hsome
        exact Bool.noConfusion hsome
    | setCaptionsWindow b =>
      by_cases h : s.lyrics.isSome = true
      · simp [appStep, h]
      · have hf : s.lyrics.isSome = false := by simpa using h
        simp only [appStep, hf, Bool.false_eq_true, if_false] at hshow
        have hsome := ih hshow
        rw [hf] at hsome
        exact Bool.noConfusion hsome

/-- Witness for C10 at a concrete reachable state: right after a document is
received both flags are set, and indeed a document is loaded. -/
theorem lyrics_some_when_window_shown_witness :
    (appStep initAppState (.recvLyrics emptyDoc)).lyrics.isSome = true :=
  lyrics_some_when_window_shown _ (ReachableApp.step _ ReachableApp.init) (Or.inl rfl)

end BabelPlayer
